import Mathlib

/-!
Shallow embedding of the traffic-generation runner in
`scaletest/trafficgen/run.go` (package `trafficgen`).

Modelling conventions:
- Go `error` values relevant to the control flow are the constructors of
  `GoError`; `nil` error is `Option.none`.
- Go byte-strings are `List Char` (one `Char` per byte; all payload bytes are
  printable).
- Effectful loops (`writeRandomData`, `drainContext`, the body of `Run`) are
  driven by explicit schedules of the events the Go `select` statements and
  channel operations observe; the loop bodies themselves are translated
  directly from the source.
- `panic` is the `Outcome.panicked` constructor, distinct from an ordinary
  error return.
-/

namespace Trafficgen

/-- Go error values distinguished by the control flow of `run.go`:
`io.EOF`, `context.DeadlineExceeded`, `context.Canceled`, anything else. -/
inductive GoError
  | eof
  | deadlineExceeded
  | canceled
  | other (msg : String)
deriving DecidableEq, Repr

/-- Result of one underlying `Read`/`Write` call: the byte count `n` and the
returned error (`none` = nil). -/
structure IOResult where
  n : Nat
  err : Option GoError
deriving DecidableEq, Repr

/-- State of `countReadWriter` (run.go lines 224-229): the two atomic
counters. The wrapped stream and context are supplied per call as oracles. -/
structure countReadWriter where
  bytesRead : Nat
  bytesWritten : Nat
deriving DecidableEq, Repr

/-- Model of `(*countReadWriter).Read` (run.go lines 231-240): if the bound
context is already done, return `(0, ctx.Err())` without touching the stream;
otherwise perform the underlying read (result supplied by the oracle `under`)
and add `n` to `bytesRead` only when the error is nil. -/
def countReadWriter.Read (w : countReadWriter) (ctxErr : Option GoError)
    (under : IOResult) : countReadWriter × IOResult :=
  match ctxErr with
  | some e => (w, ⟨0, some e⟩)
  | none =>
    match under.err with
    | none => ({ w with bytesRead := w.bytesRead + under.n }, ⟨under.n, none⟩)
    | some e => (w, ⟨under.n, some e⟩)

/-- Model of `(*countReadWriter).Write` (run.go lines 242-251), symmetric to
`Read` with the `bytesWritten` counter. -/
def countReadWriter.Write (w : countReadWriter) (ctxErr : Option GoError)
    (under : IOResult) : countReadWriter × IOResult :=
  match ctxErr with
  | some e => (w, ⟨0, some e⟩)
  | none =>
    match under.err with
    | none => ({ w with bytesWritten := w.bytesWritten + under.n }, ⟨under.n, none⟩)
    | some e => (w, ⟨under.n, some e⟩)

/-- Model of `(*countReadWriter).BytesRead` (run.go lines 253-255). -/
def countReadWriter.BytesRead (w : countReadWriter) : Nat := w.bytesRead

/-- Model of `(*countReadWriter).BytesWritten` (run.go lines 257-259). -/
def countReadWriter.BytesWritten (w : countReadWriter) : Nat := w.bytesWritten

/-- One meter operation: a `Read` or a `Write`, carrying the context state and
the underlying stream result observed by that call. A list of `MeterOp` is one
linearization of the concurrent reader/writer history; the Go counters are
updated by atomic adds, so every concurrent execution linearizes to such a
list. -/
inductive MeterOp
  | read (ctxErr : Option GoError) (under : IOResult)
  | write (ctxErr : Option GoError) (under : IOResult)
deriving DecidableEq, Repr

/-- Apply one meter operation to the counter state. -/
def meterApply (w : countReadWriter) : MeterOp → countReadWriter
  | MeterOp.read c u => (countReadWriter.Read w c u).1
  | MeterOp.write c u => (countReadWriter.Write w c u).1

/-- Run a sequence of meter operations from a starting state. -/
def meterRun (w : countReadWriter) (ops : List MeterOp) : countReadWriter :=
  ops.foldl meterApply w

/-- Byte count contributed to the read counter by one operation: `n` exactly
when the call was a `Read` that returned a nil error (context not done and
underlying error nil), else 0. -/
def readTally : MeterOp → Nat
  | MeterOp.read none ⟨n, none⟩ => n
  | _ => 0

/-- Byte count contributed to the write counter by one operation. -/
def writeTally : MeterOp → Nat
  | MeterOp.write none ⟨n, none⟩ => n
  | _ => 0

lemma meterApply_bytesRead (w : countReadWriter) (op : MeterOp) :
    (meterApply w op).bytesRead = w.bytesRead + readTally op := by
  cases op with
  | read c u =>
    cases c with
    | some e => simp [meterApply, countReadWriter.Read, readTally]
    | none =>
      obtain ⟨n, err⟩ := u
      cases err with
      | some e => simp [meterApply, countReadWriter.Read, readTally]
      | none => simp [meterApply, countReadWriter.Read, readTally]
  | write c u =>
    cases c with
    | some e => simp [meterApply, countReadWriter.Write, readTally]
    | none =>
      obtain ⟨n, err⟩ := u
      cases err with
      | some e => simp [meterApply, countReadWriter.Write, readTally]
      | none => simp [meterApply, countReadWriter.Write, readTally]

lemma meterApply_bytesWritten (w : countReadWriter) (op : MeterOp) :
    (meterApply w op).bytesWritten = w.bytesWritten + writeTally op := by
  cases op with
  | read c u =>
    cases c with
    | some e => simp [meterApply, countReadWriter.Read, writeTally]
    | none =>
      obtain ⟨n, err⟩ := u
      cases err with
      | some e => simp [meterApply, countReadWriter.Read, writeTally]
      | none => simp [meterApply, countReadWriter.Read, writeTally]
  | write c u =>
    cases c with
    | some e => simp [meterApply, countReadWriter.Write, writeTally]
    | none =>
      obtain ⟨n, err⟩ := u
      cases err with
      | some e => simp [meterApply, countReadWriter.Write, writeTally]
      | none => simp [meterApply, countReadWriter.Write, writeTally]

lemma meterRun_bytesRead (w : countReadWriter) (ops : List MeterOp) :
    (meterRun w ops).bytesRead = w.bytesRead + (ops.map readTally).sum := by
  induction ops generalizing w with
  | nil => simp [meterRun]
  | cons op rest ih =>
    simp only [meterRun, List.foldl_cons, List.map_cons, List.sum_cons]
    rw [show List.foldl meterApply (meterApply w op) rest
          = meterRun (meterApply w op) rest from rfl, ih,
        meterApply_bytesRead]
    omega

lemma meterRun_bytesWritten (w : countReadWriter) (ops : List MeterOp) :
    (meterRun w ops).bytesWritten = w.bytesWritten + (ops.map writeTally).sum := by
  induction ops generalizing w with
  | nil => simp [meterRun]
  | cons op rest ih =>
    simp only [meterRun, List.foldl_cons, List.map_cons, List.sum_cons]
    rw [show List.foldl meterApply (meterApply w op) rest
          = meterRun (meterApply w op) rest from rfl, ih,
        meterApply_bytesWritten]
    omega

lemma meterRun_append (w : countReadWriter) (l₁ l₂ : List MeterOp) :
    meterRun w (l₁ ++ l₂) = meterRun (meterRun w l₁) l₂ := by
  simp [meterRun, List.foldl_append]

/-- C2: for every linearized history of `Read`/`Write` calls on a
`countReadWriter` started at zero, at any observation point `BytesRead()`
equals the sum of the byte counts returned by the `Read` calls that returned a
nil error up to that point, `BytesWritten()` the same sum over `Write` calls,
and both counters are monotone along the history (never decremented or
reset). Concurrent increments from one reader and one writer are atomic adds,
so every interleaving is one such linearization. -/
theorem C2_counter_accounting :
    ∀ ops : List MeterOp,
      (countReadWriter.BytesRead (meterRun ⟨0, 0⟩ ops) = (ops.map readTally).sum
        ∧ countReadWriter.BytesWritten (meterRun ⟨0, 0⟩ ops) = (ops.map writeTally).sum)
      ∧ ∀ more : List MeterOp,
          countReadWriter.BytesRead (meterRun ⟨0, 0⟩ ops)
              ≤ countReadWriter.BytesRead (meterRun ⟨0, 0⟩ (ops ++ more))
            ∧ countReadWriter.BytesWritten (meterRun ⟨0, 0⟩ ops)
              ≤ countReadWriter.BytesWritten (meterRun ⟨0, 0⟩ (ops ++ more)) := by
  intro ops
  refine ⟨⟨?_, ?_⟩, ?_⟩
  · simp [countReadWriter.BytesRead, meterRun_bytesRead]
  · simp [countReadWriter.BytesWritten, meterRun_bytesWritten]
  · intro more
    constructor
    · rw [countReadWriter.BytesRead, countReadWriter.BytesRead, meterRun_append,
          meterRun_bytesRead (meterRun ⟨0, 0⟩ ops) more]
      omega
    · rw [countReadWriter.BytesWritten, countReadWriter.BytesWritten, meterRun_append,
          meterRun_bytesWritten (meterRun ⟨0, 0⟩ ops) more]
      omega

/-- Inner byte loop of `copyContext` (run.go lines 204-217): `for idx := range
src` writes one byte at a time through `dst.Write`; the oracle `res idx` is the
`(n, err)` pair returned by the `idx`-th one-byte write. An `io.EOF` or
`context.DeadlineExceeded` error stops the copy with a nil error; any other
error is returned; on success `count += n` and the loop continues. `rem` is the
number of bytes not yet attempted. -/
def copyBytes (res : Nat → IOResult) : Nat → Nat → Nat → Nat × Option GoError
  | _, 0, count => (count, none)
  | idx, rem + 1, count =>
    match (res idx).err with
    | some e =>
      if e = GoError.eof then (count, none)
      else if e = GoError.deadlineExceeded then (count, none)
      else (count, some e)
    | none => copyBytes res (idx + 1) rem (count + (res idx).n)

/-- Model of `copyContext` (run.go lines 197-221). The outer `for { select }`
checks `ctx.Done()` once (`ctxDone`); the `default` branch always returns, so
the byte loop runs at most one pass over the `srcLen` bytes of `src`. -/
def copyContext (ctxDone : Bool) (srcLen : Nat) (res : Nat → IOResult) :
    Nat × Option GoError :=
  if ctxDone then (0, none) else copyBytes res 0 srcLen 0

/-- Outcome of a Go function that may panic instead of returning. -/
inductive Outcome (α : Type)
  | ok (a : α)
  | panicked (msg : String)
deriving DecidableEq, Repr

/-- Model of `mustRandStr` (run.go lines 261-267): calls the random-string
capability `gen` (the external `cryptorand.String`, not part of the core;
`gen` is passed explicitly) and panics on its error. -/
def mustRandStr (gen : Int → Except String (List Char)) (len : Int) :
    Outcome (List Char) :=
  match gen len with
  | Except.ok s => Outcome.ok s
  | Except.error e => Outcome.panicked e

/-- Payload synthesized for one tick (run.go line 182):
`payload := "#" + mustRandStr(size-1)`, propagating the panic. -/
def tickPayload (gen : Int → Except String (List Char)) (size : Int) :
    Outcome (List Char) :=
  match mustRandStr gen (size - 1) with
  | Outcome.ok s => Outcome.ok ('#' :: s)
  | Outcome.panicked m => Outcome.panicked m

/-- JSON string escaping for one printable character (quote and backslash are
escaped; other printable characters are passed through). -/
def jsonEscapeChar (c : Char) : List Char :=
  if c = '"' ∨ c = '\\' then ['\\', c] else [c]

/-- Modelled from the spec: the wire framing produced by
`json.Marshal(codersdk.ReconnectingPTYRequest{Data: payload})` (run.go lines
183-185; the `codersdk.ReconnectingPTYRequest` type is not under src). Per the
spec, the wire payload is "a structured object with one field, `data`, a
string", i.e. `\x7b"data":"<escaped payload>"\x7d` — 11 framing bytes around
the escaped payload. Marshalling a struct holding one string field cannot
fail, so the encoder is total (the source's marshal-error branch is dead). -/
def jsonEncodePTY (payload : List Char) : List Char :=
  "\x7b\"data\":\"".data ++ (payload.map jsonEscapeChar).flatten ++ "\"\x7d".data

/-- Oracle environment for one tick of the writer: whether `ctx.Done()` was
already observable at the head of `copyContext`, and the per-byte write
results delivered by the metered stream. -/
structure TickEnv where
  ctxDoneAtCopyStart : Bool
  res : Nat → IOResult

/-- One observable event of the writer's `select` loop (run.go lines 177-193):
either `ctx.Done()` fires, or the ticker fires and a payload is written under
the given environment. -/
inductive WriterEvent
  | ctxDone
  | tick (env : TickEnv)

/-- Model of `writeRandomData` (run.go lines 176-194) driven by a schedule of
select events, paired with the running total of bytes accepted by the stream
(the sum of the per-byte `n` counted by `copyContext`, which is exactly what
the metered stream adds to its write counter). First component: `none` while
the loop is still running (schedule exhausted), `some` of the returned
value/panic once the loop ends. On `ctx.Done()` return nil; on a tick,
synthesize the payload (panic propagates), serialize it, copy it byte-wise;
a copy error returns that error, otherwise loop. -/
def writerRun (gen : Int → Except String (List Char)) (size : Int) :
    List WriterEvent → Option (Outcome (Option GoError)) × Nat
  | [] => (none, 0)
  | WriterEvent.ctxDone :: _ => (some (Outcome.ok none), 0)
  | WriterEvent.tick env :: rest =>
    match tickPayload gen size with
    | Outcome.panicked m => (some (Outcome.panicked m), 0)
    | Outcome.ok p =>
      match copyContext env.ctxDoneAtCopyStart (jsonEncodePTY p).length env.res with
      | (cnt, some e) => (some (Outcome.ok (some e)), cnt)
      | (cnt, none) =>
        let r := writerRun gen size rest
        (r.1, cnt + r.2)

/-- Return value of `writeRandomData` on a schedule. -/
def writeRandomData (gen : Int → Except String (List Char)) (size : Int)
    (sched : List WriterEvent) : Option (Outcome (Option GoError)) :=
  (writerRun gen size sched).1

/-- Total bytes accepted by the stream across a writer schedule. -/
def writerRunTotal (gen : Int → Except String (List Char)) (size : Int)
    (sched : List WriterEvent) : Nat :=
  (writerRun gen size sched).2

/-- One observable event of the coordinating loop of `drainContext` (run.go
lines 160-173): either `ctx.Done()` fires, or the draining task delivers a
(non-nil) read error on `errCh`. -/
inductive DrainEvent
  | ctxDone
  | readErr (e : GoError)
deriving DecidableEq, Repr

/-- Model of the coordinating loop of `drainContext` (run.go lines 139-174);
the inner single-byte copy task is abstracted into the stream of `errCh`
deliveries. On `ctx.Done()`, signal `done` and return nil without waiting for
an in-flight read; on a delivered error, return nil if it is `io.EOF`, else
return the error. `none` = loop still running (schedule exhausted). -/
def drainContext : List DrainEvent → Option (Option GoError)
  | [] => none
  | DrainEvent.ctxDone :: _ => some none
  | DrainEvent.readErr e :: _ =>
    if e = GoError.eof then some none else some (some e)

/-- Modelled from the spec: the `Config` type (its declaration is not under
src; run.go uses the fields `AgentID`, `TicksPerSecond`, `BytesPerSecond`,
`Duration`). Per the spec these are an opaque target identifier, a tick rate,
a byte rate and a run length; the numeric fields are non-negative machine
integers, embedded as `Nat`. -/
structure Config where
  agentID : Nat
  ticksPerSecond : Nat
  bytesPerSecond : Nat
  duration : Nat
deriving DecidableEq, Repr

/-- Derived per-tick payload size (run.go line 56):
`bytesPerTick := r.cfg.BytesPerSecond / r.cfg.TicksPerSecond`, Go integer
division (on non-negative operands this is `Nat` division). -/
def bytesPerTick (cfg : Config) : Nat := cfg.bytesPerSecond / cfg.ticksPerSecond

/-- Errors returned by `Run`, each wrapping the underlying error with its
context text (run.go lines 69, 117, 120). -/
inductive RunError
  | connect (e : GoError)
  | writeToPty (e : GoError)
  | readFromPty (e : GoError)
deriving DecidableEq, Repr

/-- Error aggregation of `Run` (run.go lines 67-70 and 116-131): a connect
error aborts immediately; otherwise the writer result is received first and a
non-nil writer error is returned (wrapped) without waiting for the reader;
otherwise a non-nil reader error is returned (wrapped); otherwise nil. -/
def runResult (openErr wErr rErr : Option GoError) : Option RunError :=
  match openErr with
  | some e => some (RunError.connect e)
  | none =>
    match wErr with
    | some e => some (RunError.writeToPty e)
    | none =>
      match rErr with
      | some e => some (RunError.readFromPty e)
      | none => none

/-- Observable events of one execution of `Run` (run.go lines 41-132):
the session-open call, the two task launches, receipt of each task's
completion signal, each task's own termination, the two distinct
`conn.Close()` call sites (the reader goroutine's at line 103 and the
deferred one at line 74), and the final `BytesWritten`/`BytesRead` reads for
the results report (lines 127-128). -/
inductive RunEvent
  | openAttempt
  | spawnReader
  | spawnWriter
  | recvWriterResult
  | writerDone
  | recvReaderResult
  | closeByReader
  | readerDone
  | readMetrics
  | closeDeferred
deriving DecidableEq, Repr

set_option linter.unusedVariables false in
/-- Event trace of `Run` as a function of whether the open succeeded and
whether each task's result was nil (`wOk`/`rOk`). The trace follows the
source's program order on the main flow; events of the reader and writer
goroutines that merely race with subsequent main-flow events (the tail of
each goroutine after its channel send is received) are placed at their
earliest possible point, immediately after that receipt — one legal
interleaving. On open failure `Run` returns before the deferred close is
registered (run.go lines 67-75). On a non-nil writer result `Run` returns at
line 117 without receiving from `rch`; the reader goroutine then stays
blocked on its unbuffered channel send, so neither its `conn.Close()` nor its
termination occurs. Note also that `Run` has no configuration-validation
branch: the trace never depends on `cfg`, and every execution begins with the
session-open attempt (run.go lines 50-66). -/
def runTrace (cfg : Config) (openOk wOk rOk : Bool) : List RunEvent :=
  if !openOk then [RunEvent.openAttempt]
  else
    RunEvent.openAttempt :: RunEvent.spawnReader :: RunEvent.spawnWriter ::
      RunEvent.recvWriterResult :: RunEvent.writerDone ::
      (if !wOk then [RunEvent.closeDeferred]
       else RunEvent.recvReaderResult :: RunEvent.closeByReader ::
         RunEvent.readerDone ::
         (if !rOk then [RunEvent.closeDeferred]
          else [RunEvent.readMetrics, RunEvent.closeDeferred]))

/-- Predicate (as a `Bool`) for either of the two `conn.Close()` call
sites. -/
def isCloseEvent (e : RunEvent) : Bool :=
  e == RunEvent.closeByReader || e == RunEvent.closeDeferred

/-- Concrete random-string capability for witnesses and counterexamples:
produces `n` letters `a` for a non-negative request and fails (as the real
capability does) on a negative length. -/
def genA (n : Int) : Except String (List Char) :=
  if n < 0 then Except.error "strlen" else Except.ok (List.replicate n.toNat 'a')

lemma writerRun_cons_of_continue (gen : Int → Except String (List Char))
    (size : Int) (ev : WriterEvent) (l : List WriterEvent)
    (h : (writerRun gen size [ev]).1 = none) :
    (writerRun gen size (ev :: l)).1 = (writerRun gen size l).1 := by
  cases ev with
  | ctxDone => simp [writerRun] at h
  | tick env =>
    cases htp : tickPayload gen size with
    | panicked m => simp [writerRun, htp] at h
    | ok p =>
      rcases hc : copyContext env.ctxDoneAtCopyStart (jsonEncodePTY p).length env.res
        with ⟨cnt, err⟩
      cases err with
      | some e => simp [writerRun, htp, hc] at h
      | none => simp [writerRun, htp, hc]

lemma writerRun_clean_then_ctxDone (gen : Int → Except String (List Char))
    (size : Int) :
    ∀ pre : List WriterEvent, (∀ ev ∈ pre, (writerRun gen size [ev]).1 = none) →
      writeRandomData gen size (pre ++ [WriterEvent.ctxDone]) = some (Outcome.ok none)
  | [], _ => rfl
  | ev :: l, h => by
    show (writerRun gen size ((ev :: l) ++ [WriterEvent.ctxDone])).1 = _
    rw [List.cons_append,
        writerRun_cons_of_continue gen size ev _ (h ev (List.mem_cons_self ev l))]
    exact writerRun_clean_then_ctxDone gen size l
      (fun e he => h e (List.mem_cons_of_mem _ he))

/-- C1: when the run ends solely because the shared deadline expires,
everything reports success: `writeRandomData` returns nil once the deadline
context's `Done` branch is selected (after any number of ticks on which the
stream did not fail with an unexpected error), `drainContext` returns nil once
the context's `Done` branch is selected, and `Run`'s error aggregation of two
nil task results is nil. -/
theorem C1_deadline_expiry_success (gen : Int → Except String (List Char))
    (size : Int) (pre : List WriterEvent)
    (hclean : ∀ ev ∈ pre, (writerRun gen size [ev]).1 = none) :
    writeRandomData gen size (pre ++ [WriterEvent.ctxDone]) = some (Outcome.ok none)
    ∧ (∀ rest, drainContext (DrainEvent.ctxDone :: rest) = some none)
    ∧ runResult none none none = none :=
  ⟨writerRun_clean_then_ctxDone gen size pre hclean, fun _ => rfl, rfl⟩

/-- Witness for C1 at a concrete schedule (no ticks before the deadline). -/
theorem C1_deadline_expiry_success_witness :
    writeRandomData genA 5 [WriterEvent.ctxDone] = some (Outcome.ok none)
    ∧ drainContext [DrainEvent.ctxDone] = some none
    ∧ runResult none none none = none :=
  ⟨(C1_deadline_expiry_success genA 5 []
      (fun ev h => absurd h (List.not_mem_nil ev))).1,
   (C1_deadline_expiry_success genA 5 []
      (fun ev h => absurd h (List.not_mem_nil ev))).2.1 [],
   (C1_deadline_expiry_success genA 5 []
      (fun ev h => absurd h (List.not_mem_nil ev))).2.2⟩

/-- C3: whenever the random capability returns strings of exactly the
requested length and `bytesPerTick ≥ 1`, the payload synthesized for a tick is
defined (no panic), begins with the marker character `#`, and has length
exactly `bytesPerTick` (one marker byte plus `bytesPerTick - 1` random
bytes). -/
theorem C3_payload_shape (gen : Int → Except String (List Char)) (size : Int)
    (hgen : ∀ n : Int, 0 ≤ n → ∃ s, gen n = Except.ok s ∧ (s.length : Int) = n)
    (hsize : 1 ≤ size) :
    ∃ p, tickPayload gen size = Outcome.ok p
      ∧ p.head? = some '#' ∧ (p.length : Int) = size := by
  obtain ⟨s, hs, hlen⟩ := hgen (size - 1) (by omega)
  refine ⟨'#' :: s, ?_, rfl, ?_⟩
  · simp [tickPayload, mustRandStr, hs]
  · simp only [List.length_cons]
    push_cast
    omega

/-- Witness for C3 at the concrete capability `genA` and `bytesPerTick = 3`. -/
theorem C3_payload_shape_witness :
    ∃ p, tickPayload genA 3 = Outcome.ok p
      ∧ p.head? = some '#' ∧ (p.length : Int) = 3 :=
  C3_payload_shape genA 3
    (fun n hn =>
      ⟨List.replicate n.toNat 'a',
        by simp only [genA, if_neg (not_lt.mpr hn)],
        by simp [Int.toNat_of_nonneg hn]⟩)
    (by norm_num)

/-- C10: if the random capability fails for the requested length (as with
`bytesPerTick - 1` negative when `bytesPerTick = 0`), the writer's tick
panics through `mustRandStr` instead of returning an error: the loop outcome
is `panicked`, which is distinct from every ordinary error return, so the
failure bypasses the error taxonomy carried by the completion channel. -/
theorem C10_rand_failure_panics (gen : Int → Except String (List Char))
    (size : Int) (msg : String) (env : TickEnv) (rest : List WriterEvent)
    (h : gen (size - 1) = Except.error msg) :
    writeRandomData gen size (WriterEvent.tick env :: rest)
        = some (Outcome.panicked msg)
    ∧ ∀ e : GoError,
        (some (Outcome.panicked msg) : Option (Outcome (Option GoError)))
          ≠ some (Outcome.ok (some e)) := by
  constructor
  · simp [writeRandomData, writerRun, tickPayload, mustRandStr, h]
  · intro e
    simp

/-- Trivial tick environment for witnesses. -/
def envTrivial : TickEnv := ⟨true, fun _ => ⟨0, none⟩⟩

/-- Witness for C10: `bytesPerTick = 0` asks `genA` for length `-1`, which
fails, and the writer's first tick panics. -/
theorem C10_rand_failure_panics_witness :
    writeRandomData genA 0 [WriterEvent.tick envTrivial]
        = some (Outcome.panicked "strlen")
    ∧ ∀ e : GoError,
        (some (Outcome.panicked "strlen") : Option (Outcome (Option GoError)))
          ≠ some (Outcome.ok (some e)) :=
  C10_rand_failure_panics genA 0 "strlen" envTrivial [] (by rfl)

/-- Byte-write oracle backed by the metered stream: the result the writer
observes for byte `i` is the `(n, err)` pair `countReadWriter.Write` returns
given the context state `ctxs i` and the underlying stream result `unders i`
at that moment (the counter state does not affect the returned pair). -/
def meterRes (ctxs : Nat → Option GoError) (unders : Nat → IOResult) :
    Nat → IOResult :=
  fun i => (countReadWriter.Write ⟨0, 0⟩ (ctxs i) (unders i)).2

/-- Context oracle that is live for the first byte write and caller-cancelled
from the second byte write on. -/
def cancelAfterOneCtx : Nat → Option GoError :=
  fun i => if i = 0 then none else some GoError.canceled

/-- Underlying stream accepting every one-byte write. -/
def okUnders : Nat → IOResult := fun _ => ⟨1, none⟩

/-- Tick environment in which the caller cancels between the first and second
byte writes of the payload. -/
def envCancelMidway : TickEnv := ⟨false, meterRes cancelAfterOneCtx okUnders⟩

/-- Counterexample to C6 as stated: with `bytesPerTick = 2` and a caller
cancellation (not a deadline expiry) arriving between the first and second
byte writes of the payload, the metered write returns `context.Canceled`,
`copyContext` does not recognize it as a clean stop, and the writer returns a
cancellation-caused error — not the success the claim requires. -/
theorem C6_cancel_midwrite_counterexample :
    writeRandomData genA 2 [WriterEvent.tick envCancelMidway]
        = some (Outcome.ok (some GoError.canceled))
    ∧ writeRandomData genA 2 [WriterEvent.tick envCancelMidway]
        ≠ some (Outcome.ok none) := by
  have h1 : writeRandomData genA 2 [WriterEvent.tick envCancelMidway]
      = some (Outcome.ok (some GoError.canceled)) := rfl
  refine ⟨h1, ?_⟩
  rw [h1]
  simp

/-- C6 amended: if the cancellation scope is already done when the payload
copy begins, `copyContext` stops immediately with a nil error regardless of
the cancellation cause; between individual byte writes, a metered write that
fails because the deadline expired — or because the stream ended (`io.EOF`,
e.g. closed externally while a write was pending) — is treated as a clean
stop with a nil error; but a metered write that fails because the caller
cancelled the scope yields `context.Canceled`, which is returned as an error
(the writer does not report success in that case). -/
theorem C6_cancellation_amended (srcLen : Nat)
    (ctxs : Nat → Option GoError) (unders : Nat → IOResult)
    (idx₁ idx₂ idx₃ rem cnt : Nat) :
    (copyContext true srcLen (meterRes ctxs unders) = (0, none))
    ∧ (ctxs idx₁ = some GoError.deadlineExceeded →
        copyBytes (meterRes ctxs unders) idx₁ (rem + 1) cnt = (cnt, none))
    ∧ (ctxs idx₂ = none → (unders idx₂).err = some GoError.eof →
        copyBytes (meterRes ctxs unders) idx₂ (rem + 1) cnt = (cnt, none))
    ∧ (ctxs idx₃ = some GoError.canceled →
        copyBytes (meterRes ctxs unders) idx₃ (rem + 1) cnt
          = (cnt, some GoError.canceled)) := by
  refine ⟨rfl, ?_, ?_, ?_⟩
  · intro h
    simp [copyBytes, meterRes, countReadWriter.Write, h]
  · intro hc hu
    simp [copyBytes, meterRes, countReadWriter.Write, hc, hu]
  · intro h
    simp [copyBytes, meterRes, countReadWriter.Write, h]

/-- Context oracle for the C6 witness: deadline-expired at byte 0, live at
byte 1, caller-cancelled at byte 2. -/
def mixedCtx : Nat → Option GoError :=
  fun i =>
    if i = 0 then some GoError.deadlineExceeded
    else if i = 1 then none
    else some GoError.canceled

/-- Underlying stream for the C6 witness: every write fails with `io.EOF`. -/
def eofUnders : Nat → IOResult := fun _ => ⟨0, some GoError.eof⟩

/-- Witness for the amended C6 at concrete oracles. -/
theorem C6_cancellation_amended_witness :
    (copyContext true 5 (meterRes mixedCtx eofUnders) = (0, none))
    ∧ copyBytes (meterRes mixedCtx eofUnders) 0 (3 + 1) 7 = (7, none)
    ∧ copyBytes (meterRes mixedCtx eofUnders) 1 (3 + 1) 7 = (7, none)
    ∧ copyBytes (meterRes mixedCtx eofUnders) 2 (3 + 1) 7
        = (7, some GoError.canceled) :=
  ⟨(C6_cancellation_amended 5 mixedCtx eofUnders 0 1 2 3 7).1,
   (C6_cancellation_amended 5 mixedCtx eofUnders 0 1 2 3 7).2.1 rfl,
   (C6_cancellation_amended 5 mixedCtx eofUnders 0 1 2 3 7).2.2.1 rfl rfl,
   (C6_cancellation_amended 5 mixedCtx eofUnders 0 1 2 3 7).2.2.2 rfl⟩

/-- Concrete valid configuration for witnesses and counterexamples:
`ticksPerSecond = 10`, `bytesPerSecond = 1000`, so `bytesPerTick = 100`. -/
def cfg0 : Config := ⟨0, 10, 1000, 1000⟩

/-- C4: `Run` waits on the writer's completion channel before the reader's
(whenever the reader's signal is received at all, the writer's was received
strictly earlier in the trace), a non-nil writer error is wrapped as a write
failure, a non-nil reader error (with a nil writer result) is wrapped as a
read failure, and when both tasks fail only the writer's (wrapped) error
surfaces. -/
theorem C4_writer_first_precedence :
    (∀ (e : GoError) (rErr : Option GoError),
        runResult none (some e) rErr = some (RunError.writeToPty e))
    ∧ (∀ e : GoError, runResult none none (some e) = some (RunError.readFromPty e))
    ∧ (∀ (cfg : Config) (w r : Bool),
        RunEvent.recvReaderResult ∈ runTrace cfg true w r →
          (runTrace cfg true w r).findIdx (· == RunEvent.recvWriterResult) <
            (runTrace cfg true w r).findIdx (· == RunEvent.recvReaderResult)) := by
  refine ⟨fun e rErr => rfl, fun e => rfl, ?_⟩
  intro cfg w r hmem
  cases w with
  | false =>
    exfalso
    simp [runTrace] at hmem
  | true =>
    cases r <;> simp only [runTrace] <;> decide

/-- Witness for C4's ordering component on a concrete trace. -/
theorem C4_writer_first_precedence_witness :
    (runTrace cfg0 true true true).findIdx (· == RunEvent.recvWriterResult) <
      (runTrace cfg0 true true true).findIdx (· == RunEvent.recvReaderResult) :=
  C4_writer_first_precedence.2.2 cfg0 true true (by decide)

/-- Counterexample to C5 as stated: on the normal-completion path the stream's
close operation is invoked twice — once by the reader goroutine after its
result is received (run.go line 103) and once by `Run`'s deferred close
(run.go line 74) — not exactly once. -/
theorem C5_close_twice_counterexample :
    (runTrace cfg0 true true true).countP isCloseEvent = 2
    ∧ ((2 : Nat) ≠ 1) := by
  constructor
  · decide
  · omega

/-- C5 amended: on the early open-failure path close is never invoked; on
every path where the stream was opened it is invoked at least once — exactly
twice on the paths where the reader's completion signal is received (normal
completion and reader error), and exactly once (only the deferred close) on
the writer-error path, where `Run` returns without receiving the reader's
signal and the reader goroutine stays blocked on its channel send. -/
theorem C5_close_invocations_amended :
    ∀ (cfg : Config) (w r : Bool),
      ((runTrace cfg false w r).countP isCloseEvent = 0)
      ∧ ((runTrace cfg true w r).countP isCloseEvent = if w then 2 else 1)
      ∧ 1 ≤ (runTrace cfg true w r).countP isCloseEvent := by
  intro cfg w r
  cases w <;> cases r <;> simp [runTrace, isCloseEvent]

/-- Invalid configuration from the claim: `bytesPerSecond = 1` is smaller
than `ticksPerSecond = 2`. -/
def cfgInvalid : Config := ⟨0, 2, 1, 100⟩

/-- C8 fails on the code: a configuration with
`bytesPerSecond < ticksPerSecond` computes `bytesPerTick = 0`, yet `Run` has
no validation branch — every execution, for every configuration, begins with
the session-open attempt, so the invalid configuration is never rejected
before the connection attempt. -/
theorem C8_no_validation :
    bytesPerTick cfgInvalid = 0
    ∧ ∀ (oOk w r : Bool),
        (runTrace cfgInvalid oOk w r).head? = some RunEvent.openAttempt := by
  refine ⟨by decide, ?_⟩
  intro oOk w r
  cases oOk <;> simp [runTrace]

/-- Counterexample to C9 as stated: on the normal-completion path the final
metric reads happen strictly before `Run`'s deferred close (the deferred
close is the last action of `Run`, after the results report), and the reader
goroutine invokes close before its own termination; on the writer-error path
a close is invoked although the reader task never terminates at all. -/
theorem C9_ordering_counterexample :
    ((runTrace cfg0 true true true).findIdx (· == RunEvent.readMetrics) <
        (runTrace cfg0 true true true).findIdx (· == RunEvent.closeDeferred))
    ∧ ((runTrace cfg0 true true true).findIdx (· == RunEvent.closeByReader) <
        (runTrace cfg0 true true true).findIdx (· == RunEvent.readerDone))
    ∧ ((runTrace cfg0 true false true).countP isCloseEvent = 1
        ∧ RunEvent.readerDone ∉ runTrace cfg0 true false true) := by
  refine ⟨by decide, by decide, by decide, by decide⟩

/-- C9 amended: in every modelled execution with the stream opened, receipt of
the writer's completion signal precedes the deferred close; receipt of the
reader's completion signal (when it happens) precedes the deferred close; and
the final metric reads (when they happen) come after both completion-signal
receipts but before the deferred close — the deferred close is the last
event, so stream close does not precede the final metric reads. -/
theorem C9_ordering_amended :
    ∀ (cfg : Config) (w r : Bool),
      ((runTrace cfg true w r).findIdx (· == RunEvent.recvWriterResult) <
          (runTrace cfg true w r).findIdx (· == RunEvent.closeDeferred))
      ∧ (RunEvent.recvReaderResult ∈ runTrace cfg true w r →
          (runTrace cfg true w r).findIdx (· == RunEvent.recvReaderResult) <
            (runTrace cfg true w r).findIdx (· == RunEvent.closeDeferred))
      ∧ (RunEvent.readMetrics ∈ runTrace cfg true w r →
          ((runTrace cfg true w r).findIdx (· == RunEvent.recvWriterResult) <
              (runTrace cfg true w r).findIdx (· == RunEvent.readMetrics)
            ∧ (runTrace cfg true w r).findIdx (· == RunEvent.recvReaderResult) <
              (runTrace cfg true w r).findIdx (· == RunEvent.readMetrics)
            ∧ (runTrace cfg true w r).findIdx (· == RunEvent.readMetrics) <
              (runTrace cfg true w r).findIdx (· == RunEvent.closeDeferred))) := by
  intro cfg w r
  cases w <;> cases r <;> simp only [runTrace] <;> decide

/-- Witness for the amended C9 on the normal-completion trace. -/
theorem C9_ordering_amended_witness :
    ((runTrace cfg0 true true true).findIdx (· == RunEvent.recvWriterResult) <
        (runTrace cfg0 true true true).findIdx (· == RunEvent.closeDeferred))
    ∧ ((runTrace cfg0 true true true).findIdx (· == RunEvent.recvReaderResult) <
        (runTrace cfg0 true true true).findIdx (· == RunEvent.closeDeferred))
    ∧ ((runTrace cfg0 true true true).findIdx (· == RunEvent.recvWriterResult) <
          (runTrace cfg0 true true true).findIdx (· == RunEvent.readMetrics)
        ∧ (runTrace cfg0 true true true).findIdx (· == RunEvent.recvReaderResult) <
          (runTrace cfg0 true true true).findIdx (· == RunEvent.readMetrics)
        ∧ (runTrace cfg0 true true true).findIdx (· == RunEvent.readMetrics) <
          (runTrace cfg0 true true true).findIdx (· == RunEvent.closeDeferred)) :=
  ⟨(C9_ordering_amended cfg0 true true).1,
   (C9_ordering_amended cfg0 true true).2.1 (by decide),
   (C9_ordering_amended cfg0 true true).2.2 (by decide)⟩

/-- Underlying per-byte write oracle accepting every byte. -/
def allOkRes : Nat → IOResult := fun _ => ⟨1, none⟩

/-- Per-byte write oracle accepting the first `m` bytes, then failing with
`context.DeadlineExceeded` (the deadline expires mid-payload). -/
def truncRes (m : Nat) : Nat → IOResult :=
  fun i => if i < m then ⟨1, none⟩ else ⟨0, some GoError.deadlineExceeded⟩

/-- Tick environment on which the whole serialized payload is accepted. -/
def fullTickEnv : TickEnv := ⟨false, allOkRes⟩

/-- Tick environment on which the deadline expires after `m` accepted
bytes. -/
def truncTickEnv (m : Nat) : TickEnv := ⟨false, truncRes m⟩

lemma copyBytes_allOk (rem : Nat) : ∀ idx cnt : Nat,
    copyBytes allOkRes idx rem cnt = (cnt + rem, none) := by
  induction rem with
  | zero => intro idx cnt; simp [copyBytes]
  | succ n ih =>
    intro idx cnt
    simp only [copyBytes, allOkRes]
    rw [ih (idx + 1) (cnt + 1)]
    have h : cnt + 1 + n = cnt + (n + 1) := by omega
    rw [h]

lemma copyBytes_trunc (m : Nat) (rem : Nat) : ∀ idx cnt : Nat,
    idx ≤ m → m ≤ idx + rem →
      copyBytes (truncRes m) idx rem cnt = (cnt + (m - idx), none) := by
  induction rem with
  | zero =>
    intro idx cnt h1 h2
    have h3 : m - idx = 0 := by omega
    simp [copyBytes, h3]
  | succ n ih =>
    intro idx cnt h1 h2
    by_cases hlt : idx < m
    · have hres : truncRes m idx = ⟨1, none⟩ := by simp [truncRes, hlt]
      simp only [copyBytes, hres]
      rw [ih (idx + 1) (cnt + 1) (by omega) (by omega)]
      have h : cnt + 1 + (m - (idx + 1)) = cnt + (m - idx) := by omega
      rw [h]
    · have hres : truncRes m idx = ⟨0, some GoError.deadlineExceeded⟩ := by
        simp [truncRes, hlt]
      have h3 : m - idx = 0 := by omega
      simp [copyBytes, hres, h3]

lemma length_le_escaped_length (p : List Char) :
    p.length ≤ ((p.map jsonEscapeChar).flatten).length := by
  induction p with
  | nil => simp
  | cons c l ih =>
    simp only [List.map_cons, List.flatten_cons, List.length_append,
      List.length_cons]
    have h : 1 ≤ (jsonEscapeChar c).length := by
      by_cases hc : c = '"' ∨ c = '\\' <;> simp [jsonEscapeChar, hc]
    omega

lemma jsonEncodePTY_length (p : List Char) :
    (jsonEncodePTY p).length = ((p.map jsonEscapeChar).flatten).length + 11 := by
  have h1 : ("\x7b\"data\":\"".data).length = 9 := by decide
  have h2 : ("\"\x7d".data).length = 2 := by decide
  simp only [jsonEncodePTY, List.length_append, h1, h2]
  omega

lemma writerRun_fullTick_cons (gen : Int → Except String (List Char))
    (size : Int) (p : List Char) (hp : tickPayload gen size = Outcome.ok p)
    (rest : List WriterEvent) :
    writerRun gen size (WriterEvent.tick fullTickEnv :: rest)
      = ((writerRun gen size rest).1,
         (jsonEncodePTY p).length + (writerRun gen size rest).2) := by
  have hcopy : copyContext false (jsonEncodePTY p).length allOkRes
      = ((jsonEncodePTY p).length, none) := by
    simp [copyContext, copyBytes_allOk]
  simp [writerRun, hp, fullTickEnv, hcopy]

lemma writerRun_replicate_fullTick (gen : Int → Except String (List Char))
    (size : Int) (p : List Char) (hp : tickPayload gen size = Outcome.ok p)
    (k : Nat) (rest : List WriterEvent) :
    writerRun gen size (List.replicate k (WriterEvent.tick fullTickEnv) ++ rest)
      = ((writerRun gen size rest).1,
         k * (jsonEncodePTY p).length + (writerRun gen size rest).2) := by
  induction k with
  | zero => simp
  | succ n ih =>
    rw [List.replicate_succ, List.cons_append,
        writerRun_fullTick_cons gen size p hp, ih]
    have h : (jsonEncodePTY p).length
        + (n * (jsonEncodePTY p).length + (writerRun gen size rest).2)
        = (n + 1) * (jsonEncodePTY p).length + (writerRun gen size rest).2 := by
      ring
    rw [h]

lemma writerRun_truncTick_then_ctxDone (gen : Int → Except String (List Char))
    (size : Int) (p : List Char) (hp : tickPayload gen size = Outcome.ok p)
    (m : Nat) (hm : m ≤ (jsonEncodePTY p).length) :
    writerRun gen size [WriterEvent.tick (truncTickEnv m), WriterEvent.ctxDone]
      = (some (Outcome.ok none), m) := by
  have hcopy : copyContext false (jsonEncodePTY p).length (truncRes m)
      = (m, none) := by
    have := copyBytes_trunc m (jsonEncodePTY p).length 0 0 (by omega) (by omega)
    simpa [copyContext] using this
  simp [writerRun, hp, truncTickEnv, hcopy]

/-- Counterexample to C7 as stated: with `bytesPerTick = S = 100` and
`floor(D / T) = 10` full ticks completing before the deadline, each tick
passes the serialized envelope — 111 bytes, not 100 — to the stream, so the
total accepted byte count is 1110, which is not within one tick's worth
(`S = 100`) of `S × floor(D / T) = 1000`. -/
theorem C7_rate_bound_counterexample :
    writerRunTotal genA 100
        (List.replicate 10 (WriterEvent.tick fullTickEnv)
          ++ [WriterEvent.ctxDone]) = 1110
    ∧ ¬(writerRunTotal genA 100
        (List.replicate 10 (WriterEvent.tick fullTickEnv)
          ++ [WriterEvent.ctxDone]) ≤ 100 * 10 + 100) := by
  have hp : tickPayload genA 100 = Outcome.ok ('#' :: List.replicate 99 'a') := by
    rfl
  have hL : (jsonEncodePTY ('#' :: List.replicate 99 'a')).length = 111 := by
    decide
  have h := writerRun_replicate_fullTick genA 100 _ hp 10 [WriterEvent.ctxDone]
  have htot : writerRunTotal genA 100
      (List.replicate 10 (WriterEvent.tick fullTickEnv)
        ++ [WriterEvent.ctxDone]) = 1110 := by
    rw [writerRunTotal, h, hL]
    rfl
  exact ⟨htot, by rw [htot]; omega⟩

/-- C7 amended: what each completed tick hands to the stream is the
serialized envelope, of length `L = (jsonEncodePTY payload).length ≥
bytesPerTick + 11`, not `bytesPerTick` bytes. Over `k` full ticks plus one
final tick cut short by the deadline after `m ≤ L` accepted bytes (which
produces no error: the writer still ends with success when the deadline
fires), the total number of bytes accepted by the stream is exactly
`k·L + m`, hence within one serialized payload `L` of `k·L`. -/
theorem C7_rate_bound_amended (gen : Int → Except String (List Char))
    (size : Int) (p : List Char) (hp : tickPayload gen size = Outcome.ok p)
    (k m : Nat) (hm : m ≤ (jsonEncodePTY p).length) :
    writeRandomData gen size
        (List.replicate k (WriterEvent.tick fullTickEnv)
          ++ [WriterEvent.tick (truncTickEnv m), WriterEvent.ctxDone])
      = some (Outcome.ok none)
    ∧ writerRunTotal gen size
        (List.replicate k (WriterEvent.tick fullTickEnv)
          ++ [WriterEvent.tick (truncTickEnv m), WriterEvent.ctxDone])
      = k * (jsonEncodePTY p).length + m
    ∧ k * (jsonEncodePTY p).length
        ≤ writerRunTotal gen size
            (List.replicate k (WriterEvent.tick fullTickEnv)
              ++ [WriterEvent.tick (truncTickEnv m), WriterEvent.ctxDone])
    ∧ writerRunTotal gen size
        (List.replicate k (WriterEvent.tick fullTickEnv)
          ++ [WriterEvent.tick (truncTickEnv m), WriterEvent.ctxDone])
      ≤ k * (jsonEncodePTY p).length + (jsonEncodePTY p).length
    ∧ p.length + 11 ≤ (jsonEncodePTY p).length := by
  have h := writerRun_replicate_fullTick gen size p hp k
    [WriterEvent.tick (truncTickEnv m), WriterEvent.ctxDone]
  have h2 := writerRun_truncTick_then_ctxDone gen size p hp m hm
  have hout : writeRandomData gen size
      (List.replicate k (WriterEvent.tick fullTickEnv)
        ++ [WriterEvent.tick (truncTickEnv m), WriterEvent.ctxDone])
      = some (Outcome.ok none) := by
    rw [writeRandomData, h, h2]
  have htot : writerRunTotal gen size
      (List.replicate k (WriterEvent.tick fullTickEnv)
        ++ [WriterEvent.tick (truncTickEnv m), WriterEvent.ctxDone])
      = k * (jsonEncodePTY p).length + m := by
    rw [writerRunTotal, h, h2]
  have hlen : p.length + 11 ≤ (jsonEncodePTY p).length := by
    rw [jsonEncodePTY_length]
    have := length_le_escaped_length p
    omega
  exact ⟨hout, htot, by rw [htot]; omega, by rw [htot]; omega, hlen⟩

/-- Witness for the amended C7 at `genA`, `bytesPerTick = 3`, two full ticks
and a one-byte partial tick (`L = 14`). -/
theorem C7_rate_bound_amended_witness :
    writeRandomData genA 3
        (List.replicate 2 (WriterEvent.tick fullTickEnv)
          ++ [WriterEvent.tick (truncTickEnv 1), WriterEvent.ctxDone])
      = some (Outcome.ok none)
    ∧ writerRunTotal genA 3
        (List.replicate 2 (WriterEvent.tick fullTickEnv)
          ++ [WriterEvent.tick (truncTickEnv 1), WriterEvent.ctxDone])
      = 2 * (jsonEncodePTY ['#', 'a', 'a']).length + 1
    ∧ 2 * (jsonEncodePTY ['#', 'a', 'a']).length
        ≤ writerRunTotal genA 3
            (List.replicate 2 (WriterEvent.tick fullTickEnv)
              ++ [WriterEvent.tick (truncTickEnv 1), WriterEvent.ctxDone])
    ∧ writerRunTotal genA 3
        (List.replicate 2 (WriterEvent.tick fullTickEnv)
          ++ [WriterEvent.tick (truncTickEnv 1), WriterEvent.ctxDone])
      ≤ 2 * (jsonEncodePTY ['#', 'a', 'a']).length
          + (jsonEncodePTY ['#', 'a', 'a']).length
    ∧ (['#', 'a', 'a'] : List Char).length + 11
        ≤ (jsonEncodePTY ['#', 'a', 'a']).length :=
  C7_rate_bound_amended genA 3 ['#', 'a', 'a'] (by rfl) 2 1 (by decide)

end Trafficgen
